import Mathlib

/-!
Verification of the classification engine of github-categorized-releases
(src/lib/matcher.js: testMatcher / matchesCategory / matchesFilter,
src/lib/matcher.js (tree-building part): parseCutoffDate / filterByCutoffDate /
findLatestReleases / classifyReleases / filterEmptyCategories, and
src/lib/github-api.js: the release mapping shape).

The embedding is shallow: JavaScript objects become Lean structures and
inductives; `undefined` becomes `Option.none`; the three JS states of a
configuration key (absent / null / value) become the inductive `JsOpt`.
The JS regular-expression test `new RegExp(pattern, 'i').test(text)` is
a library call, so the whole development is parametrised over a function
`rt : String → String → Bool` standing for it (pattern first, text second).
Likewise ISO-date parsing (`new Date(s).getTime()`) is a parameter
`pd : String → Option Int` (none models an Invalid Date, whose time value
is NaN), and the calendar arithmetic of the relative cutoff shorthand is a
parameter `relSub : Int → Nat → Char → Int` (now, amount, unit).
-/

namespace GCR

/-- Three-state value of a JS configuration key: the key may be absent
(`Object.hasOwn` is false), present with the literal `null`, or present with
a value.  The JS `resolveValue` receives the pair (value, hasExplicitValue);
`JsOpt` folds that pair into one datum. -/
inductive JsOpt (α : Type) where
  | absent
  | nul
  | val (a : α)
deriving DecidableEq

/-- One release asset, as produced by `mappedReleases` in github-api.js.
`isSourceCode` models the flag tested by `!a.isSourceCode` (an absent flag is
falsy in JS, so a plain Bool with `false` for absent is faithful). -/
structure Asset where
  name : String
  isSourceCode : Bool
deriving DecidableEq

/-- A release record, the shape consumed by the matcher (github-api.js
`mappedReleases`).  String fields that can be `undefined` in JS are `Option
String`; `isLatest` is not part of the input (it is attached per scope by the
tree builder), so raw input releases carry `none` there. -/
structure Release where
  id : Nat
  name : Option String
  tag : Option String
  body : Option String
  prerelease : Option Bool
  publishedAt : String
  assets : Option (List Asset)
  isLatest : Option Bool
deriving DecidableEq

/-- JS ToString coercion applied by `RegExp.prototype.test` to its argument:
`undefined` stringifies to the literal string "undefined". -/
def jsToString : Option String → String
  | some s => s
  | none => "undefined"

/-- Search text for the assets leaves: non-source-code asset names joined by
newlines (matcher.js lines 50-66; `release.assets || []` maps undefined to
the empty list). -/
def assetNamesText (r : Release) : String :=
  String.intercalate "\n" (((r.assets.getD []).filter (fun a => !a.isSourceCode)).map (fun a => a.name))

mutual
/-- A matcher node (matcher.js): two optional combinator lists and the ten
simple leaf keys.  `none` on a combinator covers both `undefined` and `null`
(both falsy, so `if (matcher['match-all'])` skips); an explicitly *empty*
list is `some .nil`, which is truthy in JS and enters the branch. -/
inductive Matcher where
  | mk (matchAll matchAny : Option MatcherList)
       (title titleNot tag tagNot body bodyNot assets assetsNot : Option String)
       (isPrerelease isLatest : Option Bool)

/-- A JS array of matcher nodes (declared mutually with `Matcher` so that
evaluation is structurally recursive and kernel-computable). -/
inductive MatcherList where
  | nil
  | cons (m : Matcher) (ms : MatcherList)
end

/-- Conversion of a `MatcherList` to an ordinary list, for stating theorems. -/
def MatcherList.toList : MatcherList → List Matcher
  | .nil => []
  | .cons m ms => m :: ms.toList

/-- The ten simple leaf checks of `testMatcher` (matcher.js lines 19-76):
each present leaf early-returns `false` when its test fails, which is
value-wise the conjunction of the individual tests. -/
def testLeaves (rt : String → String → Bool) (r : Release)
    (title titleNot tagP tagNot bodyP bodyNot assetsP assetsNot : Option String)
    (isPre isLat : Option Bool) : Bool :=
  (match title with | some p => rt p (jsToString r.name) | none => true) &&
  (match titleNot with | some p => !(rt p (jsToString r.name)) | none => true) &&
  (match tagP with | some p => rt p (jsToString r.tag) | none => true) &&
  (match tagNot with | some p => !(rt p (jsToString r.tag)) | none => true) &&
  (match bodyP with | some p => rt p (jsToString r.body) | none => true) &&
  (match bodyNot with | some p => !(rt p (jsToString r.body)) | none => true) &&
  (match assetsP with | some p => rt p (assetNamesText r) | none => true) &&
  (match assetsNot with | some p => !(rt p (assetNamesText r)) | none => true) &&
  (match isPre with | some b => r.prerelease == some b | none => true) &&
  (match isLat with | some b => r.isLatest == some b | none => true)

mutual
/-- matcher.js `testMatcher(release, matcher)`.  The JS body initialises
`result = true`, folds the `match-all` (`every`) and `match-any` (`some`)
branches into `result` when the key is truthy, then runs the simple leaf
checks each of which early-returns `false` on failure, and finally returns
`result`; value-wise that is the conjunction of the leaf tests and the two
combinator results (all side conditions are pure). -/
def testMatcher (rt : String → String → Bool) (r : Release) : Matcher → Bool
  | .mk mAll mAny title titleNot tagP tagNot bodyP bodyNot assetsP assetsNot isPre isLat =>
    testLeaves rt r title titleNot tagP tagNot bodyP bodyNot assetsP assetsNot isPre isLat &&
    (match mAll with
     | some ms => testAll rt r ms
     | none => true) &&
    (match mAny with
     | some ms => testAny rt r ms
     | none => true)

/-- `matcher['match-all'].every(m => testMatcher(release, m))`. -/
def testAll (rt : String → String → Bool) (r : Release) : MatcherList → Bool
  | .nil => true
  | .cons m ms => testMatcher rt r m && testAll rt r ms

/-- `matcher['match-any'].some(m => testMatcher(release, m))`. -/
def testAny (rt : String → String → Bool) (r : Release) : MatcherList → Bool
  | .nil => false
  | .cons m ms => testMatcher rt r m || testAny rt r ms
end

/-- Inheritance mode for `inherit-parent-matchers` (matcher.js
`matchesCategory`): the live JS values are `false`, `null`, `true`, "and",
"or". -/
inductive InheritMode where
  | fls
  | nul
  | tru
  | andM
  | orM
deriving DecidableEq

/-- JS truthiness of an inherit mode (`inheritMode && inheritMode !== false`:
`false` and `null` are falsy, `true`/"and"/"or" are truthy). -/
def InheritMode.truthy : InheritMode → Bool
  | .fls => false
  | .nul => false
  | _ => true

/-- Effective max-displayed domain: the JS values flowing through resolution
are `false`, `null` (= unlimited) and numbers. -/
inductive MaxV where
  | fls
  | nullv
  | num (n : Int)
deriving DecidableEq

/-- Cutoff date value at configuration level: `false` or a string (a key that
is `null` is represented once resolution happens, see `parseCutoffDate`). -/
inductive CutoffSpec where
  | fls
  | str (s : String)
deriving DecidableEq

/-- Parsed cutoff value: `false` (disabled) or a Date; `date none` is an
Invalid Date (its time value is NaN). -/
inductive CutoffVal where
  | fls
  | date (d : Option Int)
deriving DecidableEq

/-- latest-match configuration value (matcher.js `findLatestReleases`):
`false`, `null`/undefined, a string (with "newest" special-cased), an array
of matcher specs, or a single matcher object. -/
inductive LatestMatch where
  | fls
  | nul
  | str (s : String)
  | arr (ms : MatcherList)
  | obj (m : Matcher)

/-- A category configuration node.  Fields mirror the keys read by
`matchesCategory` and `processNode`: optional combinators and the ten direct
leaf keys (`SIMPLE_MATCHER_KEYS`), the four inheritable settings as
three-state `JsOpt` values, `show-releases` (the JS test is
`node['show-releases'] !== false`, so a Bool holding that test's result is
faithful), and the nested subcategories. -/
inductive CatConfig where
  | mk (name : String)
       (descr tooltip : Option String)
       (matchAll matchAny : Option MatcherList)
       (title titleNot tag tagNot body bodyNot assets assetsNot : Option String)
       (isPrerelease isLatest : Option Bool)
       (latestMatch : JsOpt LatestMatch)
       (cutoffDate : JsOpt CutoffSpec)
       (maxDisplayed : JsOpt MaxV)
       (inheritParentMatchers : JsOpt InheritMode)
       (showReleases : Bool)
       (categories : List CatConfig)

/-- Subcategories of a category configuration node. -/
def CatConfig.categories : CatConfig → List CatConfig
  | .mk _ _ _ _ _ _ _ _ _ _ _ _ _ _ _ _ _ _ _ _ cats => cats

/-- The `inherit-parent-matchers` key of a category configuration node. -/
def CatConfig.inheritParentMatchers : CatConfig → JsOpt InheritMode
  | .mk _ _ _ _ _ _ _ _ _ _ _ _ _ _ _ _ _ _ ipm _ _ => ipm

/-- The direct `is-latest` leaf key of a category configuration node. -/
def CatConfig.isLatestLeaf : CatConfig → Option Bool
  | .mk _ _ _ _ _ _ _ _ _ _ _ _ _ _ il _ _ _ _ _ _ => il

/-- Whether a category node declares matchers of its own (matcher.js lines
99-110): a non-empty `match-any`, a non-empty `match-all` (`category[k] &&
category[k].length > 0`), or at least one direct leaf key present. -/
def hasOwnMatchers : CatConfig → Bool
  | .mk _ _ _ mAll mAny t tn tg tgn b bn a an ip il _ _ _ _ _ _ =>
    (match mAny with | some ms => !(ms.toList.isEmpty) | none => false) ||
    (match mAll with | some ms => !(ms.toList.isEmpty) | none => false) ||
    (t.isSome || tn.isSome || tg.isSome || tgn.isSome || b.isSome || bn.isSome ||
     a.isSome || an.isSome || ip.isSome || il.isSome)

/-- matcher.js `matchesCategory(release, category, parentMatches,
inheritMode)`.  `parentMatches` is `none` when the node has no parent
(the JS `undefined`). -/
def matchesCategory (rt : String → String → Bool) (r : Release) (c : CatConfig)
    (parentMatches : Option Bool) (inheritMode : InheritMode) : Bool :=
  match c with
  | .mk _ _ _ mAll mAny t tn tg tgn b bn a an ip il _ _ _ _ _ _ =>
    let hasMatchAny := match mAny with | some ms => !(ms.toList.isEmpty) | none => false
    let hasMatchAll := match mAll with | some ms => !(ms.toList.isEmpty) | none => false
    let hasDirect := t.isSome || tn.isSome || tg.isSome || tgn.isSome || b.isSome ||
      bn.isSome || a.isSome || an.isSome || ip.isSome || il.isSome
    let direct : Matcher := .mk none none t tn tg tgn b bn a an ip il
    let shouldInherit := inheritMode.truthy && parentMatches.isSome
    if !(hasMatchAny || hasMatchAll || hasDirect) then
      if shouldInherit then parentMatches.getD false else false
    else
      let own := if hasMatchAny then testAny rt r (mAny.getD .nil) else true
      let own := if own && hasMatchAll then testAll rt r (mAll.getD .nil) else own
      let own := if own && hasDirect then testMatcher rt r direct else own
      if !shouldInherit then own
      else if inheritMode = .orM then parentMatches.getD false || own
      else parentMatches.getD false && own

/-- Whether a filter block declares any matchers (matcher.js lines 168-178:
same keys as a category, same empty-list handling). -/
def filterHasMatchers : Matcher → Bool
  | .mk mAll mAny t tn tg tgn b bn a an ip il =>
    (match mAny with | some ms => !(ms.toList.isEmpty) | none => false) ||
    (match mAll with | some ms => !(ms.toList.isEmpty) | none => false) ||
    (t.isSome || tn.isSome || tg.isSome || tgn.isSome || b.isSome || bn.isSome ||
     a.isSome || an.isSome || ip.isSome || il.isSome)

/-- matcher.js `matchesFilter(release, filter)`: a missing filter
(`!filter || typeof filter !== 'object'`, modelled by `none`) and a filter
with no matchers both match everything; otherwise the composition rule is
the same as a category's own matchers. -/
def matchesFilter (rt : String → String → Bool) (r : Release) : Option Matcher → Bool
  | none => true
  | some f =>
    match f with
    | .mk mAll mAny t tn tg tgn b bn a an ip il =>
      let hasMatchAny := match mAny with | some ms => !(ms.toList.isEmpty) | none => false
      let hasMatchAll := match mAll with | some ms => !(ms.toList.isEmpty) | none => false
      let hasDirect := t.isSome || tn.isSome || tg.isSome || tgn.isSome || b.isSome ||
        bn.isSome || a.isSome || an.isSome || ip.isSome || il.isSome
      let direct : Matcher := .mk none none t tn tg tgn b bn a an ip il
      if !(hasMatchAny || hasMatchAll || hasDirect) then true
      else
        let m1 := if hasMatchAny then testAny rt r (mAny.getD .nil) else true
        let m2 := if m1 && hasMatchAll then testAll rt r (mAll.getD .nil) else m1
        if m2 && hasDirect then testMatcher rt r direct else m2

/-- The relative-shorthand check of `parseCutoffDate`: the regular expression
`^-(\d+)([dwmy])$/i` applied to the cutoff string, returning the parsed
amount (`parseInt(..., 10)` on the digit run) and the lower-cased unit. -/
def parseRelative (s : String) : Option (Nat × Char) :=
  match s.toList with
  | '-' :: rest =>
    match rest.getLast? with
    | none => none
    | some u =>
      let ds := rest.dropLast
      if !ds.isEmpty && ds.all (fun c => c.isDigit) &&
          ['d', 'w', 'm', 'y'].contains u.toLower then
        some (ds.foldl (fun acc c => acc * 10 + (c.toNat - 48)) 0, u.toLower)
      else none
  | _ => none

/-- matcher.js `parseCutoffDate(cutoffDate)`.  The argument `none` is a falsy
input (`null`/`undefined`), which together with the empty string returns the
JS `null` (`none`); `some .fls` is disabled; `some (.date _)` a date — where
`.date none` is an Invalid Date (the result of `new Date(s)` on an
unparseable string `s`, modelled by `pd s = none`).  `relSub now n u` stands
for the JS Date arithmetic subtracting `n` days/weeks/months/years from
`now`. -/
def parseCutoffDate (now : Int) (pd : String → Option Int)
    (relSub : Int → Nat → Char → Int) : Option CutoffSpec → Option CutoffVal
  | none => none
  | some .fls => some .fls
  | some (.str s) =>
    if s = "" then none
    else match parseRelative s with
      | some (n, u) => some (.date (some (relSub now n u)))
      | none => some (.date (pd s))

/-- JS `>` comparison between two Date time values; a NaN (Invalid Date) on
either side makes the comparison false. -/
def jsDateGt : Option Int → Option Int → Bool
  | some a, some b => decide (b < a)
  | _, _ => false

/-- matcher.js `filterByCutoffDate(releases, cutoffDate)`.  `false` and
`null` (the falsy check `!cutoffDate`) disable the filter; a Date — even an
Invalid one, which is a truthy object — filters by
`new Date(r.publishedAt) > cutoffDate`. -/
def filterByCutoffDate (pd : String → Option Int) (releases : List Release) :
    Option CutoffVal → List Release
  | none => releases
  | some .fls => releases
  | some (.date d) => releases.filter (fun r => jsDateGt (pd r.publishedAt) d)

/-- A matcher node with every key absent.  This is what property access on a
JS non-object value (for example the string "oldest" used as a latest-match
spec) yields: every matcher key reads back `undefined`. -/
def nonObjectMatcher : Matcher :=
  .mk none none none none none none none none none none none none

/-- The matcher loop of `findLatestReleases` (matcher.js lines 307-321):
clone each release flagging only the first (index 0) as latest, then collect
the ids of the clones accepted by the matcher. -/
def latestByMatcher (rt : String → String → Bool) (releases : List Release)
    (m : Matcher) : List Nat :=
  let tempReleases := releases.enum.map (fun p => { p.2 with isLatest := some (p.1 == 0) })
  tempReleases.filterMap (fun r => if testMatcher rt r m then some r.id else none)

/-- matcher.js `findLatestReleases(releases, latestMatch)`: `[]` for an empty
list or `false`; the newest release's id for `null`/`undefined`/"newest"; an
array is wrapped as `{'match-all': latestMatch}`; any other value (a matcher
object, or a non-object such as another string) is used directly as the
matcher. -/
def findLatestReleases (rt : String → String → Bool) (releases : List Release) :
    LatestMatch → List Nat :=
  fun lm =>
    match releases with
    | [] => []
    | r0 :: rest =>
      match lm with
      | .fls => []
      | .nul => [r0.id]
      | .str s =>
        if s = "newest" then [r0.id]
        else latestByMatcher rt (r0 :: rest) nonObjectMatcher
      | .arr ms =>
        latestByMatcher rt (r0 :: rest)
          (.mk (some ms) none none none none none none none none none none none)
      | .obj m => latestByMatcher rt (r0 :: rest) m

/-- matcher.js `resolveValue(nodeValue, inheritedValue, configuredDefault,
hasExplicitValue)`: the `JsOpt` argument folds `hasExplicitValue`
(`Object.hasOwn`) together with the node value, so `.absent` is
`hasExplicitValue = false`, `.nul` is an explicit `null`, and `.val v` any
other explicit value.  `inheritedValue` is `none` when the node has no
parent-provided value (`inheritedValue !== undefined` fails). -/
def resolveValue {α : Type} (nodeValue : JsOpt α) (inheritedValue : Option α)
    (configuredDefault : α) : α :=
  match nodeValue with
  | .absent =>
    match inheritedValue with
    | some v => v
    | none => configuredDefault
  | .nul => configuredDefault
  | .val v => v

/-- Insert an element into a sorted list, before the first element `y` with
`cmp x y ≤ 0` (a comparator value `≤ 0` means `x` sorts no later than `y`). -/
def insertBy {α : Type} (cmp : α → α → Int) (x : α) : List α → List α
  | [] => [x]
  | y :: ys => if cmp x y ≤ 0 then x :: y :: ys else y :: insertBy cmp x ys

/-- Stable comparator sort, modelling `Array.prototype.sort(cmp)` (stable per
the ECMAScript specification; for a consistent comparator every stable sort
produces the same list). -/
def stableSortBy {α : Type} (cmp : α → α → Int) : List α → List α
  | [] => []
  | x :: xs => insertBy cmp x (stableSortBy cmp xs)

/-- The date comparator `(a, b) => new Date(b.publishedAt) -
new Date(a.publishedAt)` (newest first).  When either date is Invalid the JS
subtraction is NaN, which major engines treat as 0 (keep relative order);
the claims proved below do not depend on that corner. -/
def cmpDate (pd : String → Option Int) (a b : Release) : Int :=
  match pd b.publishedAt, pd a.publishedAt with
  | some x, some y => x - y
  | _, _ => 0

/-- JS truthiness of the `isLatest` flag on a (cloned) release. -/
def jsIsLatest (r : Release) : Bool := r.isLatest.getD false

/-- The latest-first comparator of `processNode` (matcher.js lines 476-480):
latest releases first, date order within each group. -/
def cmpLatestFirst (pd : String → Option Int) (a b : Release) : Int :=
  if jsIsLatest a && !jsIsLatest b then -1
  else if !jsIsLatest a && jsIsLatest b then 1
  else cmpDate pd a b

/-- A resolved category tree node, as built by `processNode`. -/
inductive CatNode where
  | mk (name descr tooltip : String)
       (releases : List Release)
       (categories : List CatNode)
       (maxDisplayed : MaxV)

/-- Releases assigned to a resolved tree node. -/
def CatNode.releases : CatNode → List Release
  | .mk _ _ _ rels _ _ => rels

/-- Child nodes of a resolved tree node. -/
def CatNode.categories : CatNode → List CatNode
  | .mk _ _ _ _ cats _ => cats

/-- The configured defaults computed at the top of `classifyReleases` from
the `defaults:` section (matcher.js lines 347-352). -/
structure ConfiguredDefaults where
  latestMatch : LatestMatch
  cutoffDate : Option CutoffVal
  maxDisplayed : MaxV
  inheritParentMatchers : InheritMode

/-- The raw `defaults:` section: each key may be absent (undefined). -/
structure Defaults where
  latestMatch : Option LatestMatch
  cutoffDate : JsOpt CutoffSpec
  maxDisplayed : Option MaxV
  inheritParentMatchers : Option InheritMode

/-- matcher.js lines 347-352: fall back to `'newest'`, `parseCutoffDate('-1y')`,
`100` and `false` when a defaults key is undefined; a defaults cutoff-date
that is present is itself parsed (`null` parses to `null`). -/
def configuredDefaultsOf (now : Int) (pd : String → Option Int)
    (relSub : Int → Nat → Char → Int) (dfl : Defaults) : ConfiguredDefaults where
  latestMatch := dfl.latestMatch.getD (.str "newest")
  cutoffDate :=
    match dfl.cutoffDate with
    | .absent => parseCutoffDate now pd relSub (some (.str "-1y"))
    | .nul => parseCutoffDate now pd relSub none
    | .val s => parseCutoffDate now pd relSub (some s)
  maxDisplayed := dfl.maxDisplayed.getD (.num 100)
  inheritParentMatchers := dfl.inheritParentMatchers.getD .fls

/-- The inherited-context bundle threaded from a parent category to its
children (the four `inherited*` parameters of `processNode`); every field is
`none` at the root. -/
structure Inh where
  latestMatch : Option LatestMatch
  cutoffDate : Option (Option CutoffVal)
  maxDisplayed : Option MaxV
  inheritMode : Option InheritMode

/-- `Map.prototype.get` on the per-release match-result map: the map is built
by successive `set` calls, so the last binding for a key wins; a missing key
reads `undefined`. -/
def mapGet (l : List (Nat × Bool)) (k : Nat) : Option Bool :=
  l.foldl (fun acc p => if p.1 = k then some p.2 else acc) none

mutual
/-- matcher.js `processNode(node, inheritedLatestMatch, inheritedCutoffDate,
inheritedMaxDisplayed, inheritedInheritMode, parentReleaseMatches)`: resolve
the four effective settings, evaluate this category's match for every input
release (recording results for the children and, when the match holds, the
release id in the matched set — regardless of `show-releases`), apply the
cutoff filter, sort newest-first, run latest selection and the latest-first
re-sort, then recurse into subcategories.  Instead of mutating a shared
`matchedReleaseIds` set, the embedding returns the ids matched in this
subtree as the second component. -/
def processNode (rt : String → String → Bool) (pd : String → Option Int)
    (relSub : Int → Nat → Char → Int) (now : Int) (rs : List Release)
    (cd : ConfiguredDefaults) (node : CatConfig) (inh : Inh)
    (pm : Option (List (Nat × Bool))) : CatNode × List Nat :=
  match node with
  | .mk name descr tooltip _ _ _ _ _ _ _ _ _ _ _ _ lm cdt md ipm sr cats =>
    let effLM := resolveValue lm inh.latestMatch cd.latestMatch
    let nodeCutoff : JsOpt (Option CutoffVal) :=
      match cdt with
      | .absent => .absent
      | .nul =>
        match parseCutoffDate now pd relSub none with
        | none => .nul
        | some cv => .val (some cv)
      | .val spec =>
        match parseCutoffDate now pd relSub (some spec) with
        | none => .nul
        | some cv => .val (some cv)
    let effCD := resolveValue nodeCutoff inh.cutoffDate cd.cutoffDate
    let effMD0 := resolveValue md inh.maxDisplayed cd.maxDisplayed
    let effMD := if effMD0 = .fls then MaxV.nullv else effMD0
    let effIM := resolveValue ipm inh.inheritMode cd.inheritParentMatchers
    let rmr := rs.map (fun r =>
      (r.id, matchesCategory rt r node (pm.bind (fun l => mapGet l r.id)) effIM))
    let matched := rs.filter (fun r =>
      matchesCategory rt r node (pm.bind (fun l => mapGet l r.id)) effIM)
    let rels0 := if sr then matched.map (fun r => { r with isLatest := some false }) else []
    let rels1 := filterByCutoffDate pd rels0 effCD
    let rels2 := stableSortBy (cmpDate pd) rels1
    let latestIds := findLatestReleases rt rels2 effLM
    let rels3 := rels2.map (fun r => { r with isLatest := some (latestIds.contains r.id) })
    let rels4 := if latestIds.isEmpty then rels3 else stableSortBy (cmpLatestFirst pd) rels3
    let child := processList rt pd relSub now rs cd cats
      ⟨effLM, some effCD, some effMD, some effIM⟩ (some rmr)
    (CatNode.mk name (descr.getD "") (tooltip.getD "") rels4 child.1 effMD,
     matched.map (fun r => r.id) ++ child.2)

/-- The sibling loop of `processNode` (and the root call
`categories.map(c => processNode(c, ...))`): process each node in order,
concatenating the matched-id contributions. -/
def processList (rt : String → String → Bool) (pd : String → Option Int)
    (relSub : Int → Nat → Char → Int) (now : Int) (rs : List Release)
    (cd : ConfiguredDefaults) (nodes : List CatConfig) (inh : Inh)
    (pm : Option (List (Nat × Bool))) : List CatNode × List Nat :=
  match nodes with
  | [] => ([], [])
  | c :: cs =>
    let hd := processNode rt pd relSub now rs cd c inh pm
    let tl := processList rt pd relSub now rs cd cs inh pm
    (hd.1 :: tl.1, hd.2 ++ tl.2)
end

mutual
/-- The per-node body of matcher.js `filterEmptyCategories`: replace the
children by their pruned versions. -/
def pruneCat : CatNode → CatNode
  | .mk n d t rels cats md => .mk n d t rels (filterEmptyCategories cats) md

/-- matcher.js `filterEmptyCategories(cats)`: prune the children first, then
keep a node iff it still has releases or surviving children. -/
def filterEmptyCategories : List CatNode → List CatNode
  | [] => []
  | c :: cs =>
    let c2 := pruneCat c
    let rest := filterEmptyCategories cs
    if !c2.releases.isEmpty || !c2.categories.isEmpty then c2 :: rest else rest
end

/-- matcher.js lines 515-517: the unmatched bucket before its own cutoff
filtering — input releases whose id is in no category's matched set, cloned
with `isLatest` initialised to `false`. -/
def unmatchedBucket (releases : List Release) (matchedIds : List Nat) : List Release :=
  (releases.filter (fun r => !(matchedIds.contains r.id))).map
    (fun r => { r with isLatest := some false })

/-- The root `unmatched:` configuration block; each of the three keys may be
absent, `null`, or a value (`Object.hasOwn` checks in matcher.js 520-528). -/
structure UnmatchedConfig where
  cutoffDate : JsOpt CutoffSpec
  latestMatch : Option LatestMatch
  maxDisplayed : Option MaxV

/-- matcher.js lines 520-522: the unmatched bucket's cutoff date — the node
value parsed when the key is present (note: no `resolveValue` here, a `null`
key parses to `null`, i.e. no filtering), else the configured default. -/
def resolveUnmatchedCutoff (now : Int) (pd : String → Option Int)
    (relSub : Int → Nat → Char → Int) (cd : ConfiguredDefaults)
    (uc : UnmatchedConfig) : Option CutoffVal :=
  match uc.cutoffDate with
  | .absent => cd.cutoffDate
  | .nul => parseCutoffDate now pd relSub none
  | .val s => parseCutoffDate now pd relSub (some s)

/-- The post-processing applied to the unmatched bucket (matcher.js lines
536-555): cutoff filter, newest-first sort, latest selection and flagging,
latest-first re-sort when any release was selected. -/
def unmatchedPipeline (rt : String → String → Bool) (pd : String → Option Int)
    (uCutoff : Option CutoffVal) (uLM : LatestMatch) (l : List Release) : List Release :=
  let l1 := filterByCutoffDate pd l uCutoff
  let l2 := stableSortBy (cmpDate pd) l1
  let ids := findLatestReleases rt l2 uLM
  let l3 := l2.map (fun r => { r with isLatest := some (ids.contains r.id) })
  if ids.isEmpty then l3 else stableSortBy (cmpLatestFirst pd) l3

/-- The value returned by `classifyReleases`. -/
structure ClassifyResult where
  tree : List CatNode
  unmatchedReleases : List Release
  defaultMaxDisplayed : MaxV
  unmatchedMaxDisplayed : MaxV

/-- matcher.js `classifyReleases(releases, categories, defaults,
unmatchedConfig)`: build the tree (the root call passes undefined for every
inherited value and for the parent match map), prune empty categories,
compute the unmatched bucket from the matched-id set, run the unmatched
bucket through its own cutoff/latest pipeline, and normalise `false`
max-displayed values to `null` (unlimited). -/
def classifyReleases (rt : String → String → Bool) (pd : String → Option Int)
    (relSub : Int → Nat → Char → Int) (now : Int) (releases : List Release)
    (categories : List CatConfig) (dfl : Defaults) (uc : UnmatchedConfig) :
    ClassifyResult :=
  let cd := configuredDefaultsOf now pd relSub dfl
  let pr := processList rt pd relSub now releases cd categories ⟨none, none, none, none⟩ none
  let filteredTree := filterEmptyCategories pr.1
  let unmatched0 := unmatchedBucket releases pr.2
  let uCutoff := resolveUnmatchedCutoff now pd relSub cd uc
  let uLM := uc.latestMatch.getD cd.latestMatch
  let uMDraw := uc.maxDisplayed.getD cd.maxDisplayed
  { tree := filteredTree
    unmatchedReleases := unmatchedPipeline rt pd uCutoff uLM unmatched0
    defaultMaxDisplayed := if cd.maxDisplayed = .fls then MaxV.nullv else cd.maxDisplayed
    unmatchedMaxDisplayed := if uMDraw = .fls then MaxV.nullv else uMDraw }

/-- matcher.js `validateMaxDisplayed(value, context)` throws exactly when the
value is present, not `null`, not `false`, and numerically below 1; this
predicate is true when no error is thrown.  The embedding of `processNode`
models the value computation of valid configurations; this predicate records
the fatal-error condition separately. -/
def validMaxDisplayed : JsOpt MaxV → Bool
  | .val (.num n) => decide (1 ≤ n)
  | _ => true

mutual
/-- Specification-side matched-id set of one category subtree: the ids of the
input releases accepted by this node's `matchesCategory` (its matchers run
whatever the display settings say), plus the ids matched in its
subcategories.  Only the matcher inheritance is threaded (the effective
`inherit-parent-matchers` value and the per-release parent match results);
cutoff dates, latest-match, max-displayed and `show-releases` play no part. -/
def specNodeIds (rt : String → String → Bool) (rs : List Release)
    (dIM : InheritMode) (node : CatConfig) (inhIM : Option InheritMode)
    (pm : Option (List (Nat × Bool))) : List Nat :=
  match node with
  | .mk _ _ _ _ _ _ _ _ _ _ _ _ _ _ _ _ _ _ ipm _ cats =>
    let effIM := resolveValue ipm inhIM dIM
    let rmr := rs.map (fun r =>
      (r.id, matchesCategory rt r node (pm.bind (fun l => mapGet l r.id)) effIM))
    let matched := rs.filter (fun r =>
      matchesCategory rt r node (pm.bind (fun l => mapGet l r.id)) effIM)
    matched.map (fun r => r.id) ++ specListIds rt rs dIM cats (some effIM) (some rmr)

/-- Specification-side matched-id set of a forest of category subtrees. -/
def specListIds (rt : String → String → Bool) (rs : List Release)
    (dIM : InheritMode) (nodes : List CatConfig) (inhIM : Option InheritMode)
    (pm : Option (List (Nat × Bool))) : List Nat :=
  match nodes with
  | [] => []
  | c :: cs => specNodeIds rt rs dIM c inhIM pm ++ specListIds rt rs dIM cs inhIM pm
end

mutual
/-- Specification-side predicate: some node of this subtree has a non-empty
release list. -/
def subtreeHasRelease : CatNode → Bool
  | .mk _ _ _ rels cats _ => !rels.isEmpty || listHasRelease cats

/-- Specification-side predicate: some node of this forest has a non-empty
release list. -/
def listHasRelease : List CatNode → Bool
  | [] => false
  | c :: cs => subtreeHasRelease c || listHasRelease cs
end

mutual
/-- Every node of this subtree has a non-empty release list or at least one
child. -/
def goodNode : CatNode → Bool
  | .mk _ _ _ rels cats _ => (!rels.isEmpty || !cats.isEmpty) && goodList cats

/-- Every node of this forest, recursively, has a non-empty release list or
at least one child. -/
def goodList : List CatNode → Bool
  | [] => true
  | c :: cs => goodNode c && goodList cs
end

/-- Case-insensitive literal substring check over character lists:
`charsStartWith hay needle` tests whether `needle` begins `hay`. -/
def charsStartWith : List Char → List Char → Bool
  | _, [] => true
  | [], _ :: _ => false
  | c :: cs, d :: ds => c == d && charsStartWith cs ds

/-- Whether `needle` occurs as a contiguous run inside `hay`. -/
def charsContain : List Char → List Char → Bool
  | [], needle => charsStartWith [] needle
  | c :: t, needle => charsStartWith (c :: t) needle || charsContain t needle

/-- A concrete executable instance of the regex-test parameter: for a pattern
without metacharacters, `new RegExp(pat, 'i').test(s)` is exactly a
case-insensitive substring search.  Used to instantiate the parametric
theorems at concrete inputs. -/
def ciRegexTest (pat s : String) : Bool :=
  charsContain (s.toList.map Char.toLower) (pat.toList.map Char.toLower)

/-- Sample release used by concrete witnesses and counterexamples. -/
def rSample : Release :=
  ⟨1, some "Release one", some "v1.0", some "", some false, "2024-03-01", some [], none⟩

/-- A pure container category: no matcher keys, no overrides, no children. -/
def containerCat : CatConfig :=
  .mk "container" none none none none none none none none none none none none
    none none .absent .absent .absent .absent true []

/-- A category whose only matcher key is a literal empty `match-any` list. -/
def catOnlyEmptyAny : CatConfig :=
  .mk "emptyAny" none none none (some .nil) none none none none none none none none
    none none .absent .absent .absent .absent true []

/-- A matcher whose only key is `body: "fined"`. -/
def mFined : Matcher :=
  .mk none none none none none none (some "fined") none none none none none

/-- A matcher whose only key is a literal empty `match-any` list. -/
def mEmptyAny : Matcher :=
  .mk none (some .nil) none none none none none none none none none none

/-- A category whose only matcher key is `is-latest: true`. -/
def catIsLatestTrue : CatConfig :=
  .mk "latestOnly" none none none none none none none none none none none none
    none (some true) .absent .absent .absent .absent true []

/-- An always-invalid stand-in for JS ISO-date parsing: every string parses
to an Invalid Date. -/
def pdNone : String → Option Int := fun _ => none

/-- C4: settings resolution obeys the three-state protocol for every
settable key: an absent key takes the inherited value when one exists and
the configured default otherwise; an explicit `null` takes the configured
default regardless of anything inherited (in particular `null` under a
parent that resolved to 40 with configured default 100 resolves to 100);
any other explicit value — `false` included — is taken literally. -/
theorem resolveValue_three_state :
    ∀ {α : Type} (iv : Option α) (d v w : α),
      resolveValue .absent (some w) d = w ∧
      resolveValue .absent (none : Option α) d = d ∧
      resolveValue .nul iv d = d ∧
      resolveValue (.val v) iv d = v ∧
      resolveValue JsOpt.nul (some (40 : Nat)) 100 = 100 := by
  intro α iv d v w
  exact ⟨rfl, rfl, rfl, rfl, rfl⟩

/-- C3: a category node that declares no matchers of its own matches nothing
when inheritance does not apply, while a filter block with no matchers — or
no filter at all — matches everything: the two entry points have exactly
opposite defaults. -/
theorem category_filter_opposite_defaults :
    ∀ (rt : String → String → Bool) (r : Release) (c : CatConfig)
      (pmv : Option Bool) (im : InheritMode) (f : Matcher),
      (hasOwnMatchers c = false → (im.truthy && pmv.isSome) = false →
        matchesCategory rt r c pmv im = false) ∧
      (filterHasMatchers f = false → matchesFilter rt r (some f) = true) ∧
      matchesFilter rt r none = true := by
  intro rt r c pmv im f
  refine ⟨?_, ?_, rfl⟩
  · intro hOwn hInh
    cases c with
    | mk name de tp mAll mAny t tn tg tgn b bn a an ip il lm cdt md ipm sr cats =>
      simp only [hasOwnMatchers] at hOwn
      simp only [matchesCategory, hOwn, hInh]
      simp
  · intro hF
    cases f with
    | mk mAll mAny t tn tg tgn b bn a an ip il =>
      simp only [filterHasMatchers] at hF
      simp only [matchesFilter, hF]
      simp

/-- C3 witness: a concrete container category matches nothing while a
concrete empty filter block (and a missing filter) match everything. -/
theorem category_filter_opposite_defaults_witness :
    matchesCategory ciRegexTest rSample containerCat none .fls = false ∧
    matchesFilter ciRegexTest rSample (some nonObjectMatcher) = true ∧
    matchesFilter ciRegexTest rSample none = true := by
  obtain ⟨h1, h2, h3⟩ :=
    category_filter_opposite_defaults ciRegexTest rSample containerCat none .fls nonObjectMatcher
  exact ⟨h1 (by decide) (by decide), h2 (by decide), h3⟩

/-- A `filterMap` with an if-some-else-none body is a filter followed by a
map. -/
theorem filterMap_if_eq_filter_map {α β : Type} (p : α → Bool) (f : α → β) :
    ∀ l : List α,
      l.filterMap (fun a => if p a then some (f a) else none) = (l.filter p).map f := by
  intro l
  induction l with
  | nil => rfl
  | cons a t ih =>
    by_cases h : p a = true
    · simp [List.filterMap_cons, List.filter_cons, h, ih]
    · simp only [Bool.not_eq_true] at h
      simp [List.filterMap_cons, List.filter_cons, h, ih]

/-- Cloning releases (updating `isLatest` from the enumeration index) does
not change the id sequence. -/
theorem enumFrom_clone_ids (g : Nat × Release → Option Bool) :
    ∀ (l : List Release) (n : Nat),
      ((List.enumFrom n l).map (fun p => { p.2 with isLatest := g p })).map
          (fun r => r.id) =
        l.map (fun r => r.id) := by
  intro l
  induction l with
  | nil => intro n; rfl
  | cons a t ih => intro n; simp [List.enumFrom, ih]

/-- One-step unfolding of `testMatcher` (stated once so later proofs can
rewrite with a plain equation). -/
theorem testMatcher_mk (rt : String → String → Bool) (r : Release)
    (mAll mAny : Option MatcherList) (t tn tg tgn b bn a an : Option String)
    (ip il : Option Bool) :
    testMatcher rt r (.mk mAll mAny t tn tg tgn b bn a an ip il) =
      (testLeaves rt r t tn tg tgn b bn a an ip il &&
       (match mAll with | some ms => testAll rt r ms | none => true) &&
       (match mAny with | some ms => testAny rt r ms | none => true)) := by
  rw [testMatcher.eq_def]

/-- `every` over an empty matcher list is true. -/
theorem testAll_nil (rt : String → String → Bool) (r : Release) :
    testAll rt r .nil = true := by rw [testAll.eq_def]

/-- `every` over a non-empty matcher list is the head test and the rest. -/
theorem testAll_cons (rt : String → String → Bool) (r : Release) (m : Matcher)
    (ms : MatcherList) :
    testAll rt r (.cons m ms) = (testMatcher rt r m && testAll rt r ms) := by
  rw [testAll.eq_def]

/-- `some` over an empty matcher list is false. -/
theorem testAny_nil (rt : String → String → Bool) (r : Release) :
    testAny rt r .nil = false := by rw [testAny.eq_def]

/-- `some` over a non-empty matcher list is the head test or the rest. -/
theorem testAny_cons (rt : String → String → Bool) (r : Release) (m : Matcher)
    (ms : MatcherList) :
    testAny rt r (.cons m ms) = (testMatcher rt r m || testAny rt r ms) := by
  rw [testAny.eq_def]

/-- A matcher object carrying only a `match-all` list tests exactly as the
conjunction over that list. -/
theorem testMatcher_only_matchAll (rt : String → String → Bool) (r : Release)
    (ms : MatcherList) :
    testMatcher rt r (.mk (some ms) none none none none none none none none none none none) =
      testAll rt r ms := by
  simp [testMatcher_mk, testLeaves]

/-- The empty matcher object — which is also what JS property access on a
non-object latest-match value yields — accepts every release. -/
theorem testMatcher_nonObject (rt : String → String → Bool) (r : Release) :
    testMatcher rt r nonObjectMatcher = true := by
  simp [nonObjectMatcher, testMatcher_mk, testLeaves]

/-- C5: latest selection on a newest-first release list returns the empty
set for `false`; the singleton of the newest release's id for `null`/unset
(and for the literal "newest") on a non-empty list, and the empty set on an
empty list; and for an array of matcher specs the ids of exactly the
releases accepted by the array as an implicit match-all group, evaluated on
clones in which only the newest release is provisionally flagged
`isLatest = true`. -/
theorem findLatestReleases_spec :
    ∀ (rt : String → String → Bool) (r0 : Release) (rest : List Release)
      (lm : LatestMatch) (ms : MatcherList),
      findLatestReleases rt [] lm = [] ∧
      findLatestReleases rt (r0 :: rest) .fls = [] ∧
      findLatestReleases rt (r0 :: rest) .nul = [r0.id] ∧
      findLatestReleases rt (r0 :: rest) (.str "newest") = [r0.id] ∧
      findLatestReleases rt (r0 :: rest) (.arr ms) =
        (((r0 :: rest).enum.map (fun p => { p.2 with isLatest := some (p.1 == 0) })).filter
            (fun r => testAll rt r ms)).map (fun r => r.id) := by
  intro rt r0 rest lm ms
  refine ⟨rfl, rfl, rfl, by simp [findLatestReleases], ?_⟩
  simp only [findLatestReleases, latestByMatcher, testMatcher_only_matchAll]
  exact filterMap_if_eq_filter_map (fun r => testAll rt r ms) (fun r => r.id) _

/-- C10: a latest-match value that is none of `false`, `null`, "newest" or
an array — a plain misspelled string such as "oldest" — is passed through
to `testMatcher` as the matcher itself; property access on it yields no
recognised key, so every release tests true and every id in the scope is
returned as latest, with no configuration error raised. -/
theorem latest_match_unrecognized_string :
    ∀ (rt : String → String → Bool) (r0 : Release) (rest : List Release) (s : String),
      s ≠ "newest" →
      findLatestReleases rt (r0 :: rest) (.str s) = (r0 :: rest).map (fun r => r.id) := by
  intro rt r0 rest s hs
  simp only [findLatestReleases]
  rw [if_neg hs]
  simp only [latestByMatcher]
  rw [filterMap_if_eq_filter_map (fun r => testMatcher rt r nonObjectMatcher) (fun r => r.id)]
  simp only [testMatcher_nonObject, List.filter_true]
  exact enumFrom_clone_ids (fun p => some (p.1 == 0)) (r0 :: rest) 0

/-- C10 witness: the misspelled latest-match string "oldest" selects every
release in the scope. -/
theorem latest_match_unrecognized_string_witness :
    findLatestReleases ciRegexTest [rSample] (.str "oldest") = [rSample.id] :=
  latest_match_unrecognized_string ciRegexTest rSample [] "oldest" (by decide)

/-- C9: during tree building, category matchers are evaluated against the
raw input releases, which carry no `isLatest` field; strict equality against
`undefined` fails for both `true` and `false`, so a matcher with an
`is-latest` leaf rejects every raw release, and a category requiring such a
leaf (here: as a direct leaf, without inheritance) matches no release. -/
theorem is_latest_leaf_matches_nothing_raw :
    ∀ (rt : String → String → Bool) (r : Release) (b : Bool)
      (mAll mAny : Option MatcherList) (t tn tg tgn bo bn a an : Option String)
      (ip : Option Bool),
      r.isLatest = none →
      (testMatcher rt r (.mk mAll mAny t tn tg tgn bo bn a an ip (some b)) = false ∧
       ∀ (c : CatConfig) (pmv : Option Bool), c.isLatestLeaf = some b →
         matchesCategory rt r c pmv .fls = false) := by
  intro rt r b mAll mAny t tn tg tgn bo bn a an ip h
  have hleafFalse : ∀ (t2 tn2 tg2 tgn2 bo2 bn2 a2 an2 : Option String) (ip2 : Option Bool),
      testLeaves rt r t2 tn2 tg2 tgn2 bo2 bn2 a2 an2 ip2 (some b) = false := by
    intro t2 tn2 tg2 tgn2 bo2 bn2 a2 an2 ip2
    simp [testLeaves, h]
  constructor
  · simp [testMatcher_mk, hleafFalse]
  · intro c pmv hleaf
    cases c with
    | mk name de tp mAll2 mAny2 t2 tn2 tg2 tgn2 bo2 bn2 a2 an2 ip2 il2 lm cdt md ipm sr cats =>
      simp only [CatConfig.isLatestLeaf] at hleaf
      subst hleaf
      simp only [matchesCategory, InheritMode.truthy, Bool.false_and, Option.isSome_some,
        Bool.or_true, Bool.not_true, Bool.false_eq_true, if_false, ite_false, Bool.not_false,
        if_true, ite_true, testMatcher_mk, hleafFalse, Bool.false_and, Bool.and_false]
      have tauto : ∀ X : Bool, (if (X && true) = true then false else X) = false := by
        intro X; cases X <;> rfl
      exact tauto _

/-- C9 witness: the sample raw release (no `isLatest` field) is rejected by
an `is-latest: true` matcher and by a category requiring that leaf. -/
theorem is_latest_leaf_matches_nothing_raw_witness :
    testMatcher ciRegexTest rSample
      (.mk none none none none none none none none none none none (some true)) = false ∧
    matchesCategory ciRegexTest rSample catIsLatestTrue none .fls = false := by
  obtain ⟨h1, h2⟩ := is_latest_leaf_matches_nothing_raw ciRegexTest rSample true
    none none none none none none none none none none none rfl
  exact ⟨h1, h2 catIsLatestTrue none rfl⟩

/-- C1 counterexample: a matcher node whose only key is a literal empty
`match-any` list rejects the sample release (the claim says it imposes no
constraint, i.e. the test should be true), and a category whose only matcher
key is an empty `match-any` list matches nothing (the claim says it matches
every release its other leaves do not disqualify, i.e. every release). -/
theorem empty_match_any_rejects_cex :
    testMatcher ciRegexTest rSample mEmptyAny = false ∧
    matchesCategory ciRegexTest rSample catOnlyEmptyAny none .fls = false := by
  constructor
  · decide
  · decide

/-- C1 amended: in `testMatcher` (i.e. inside nested matcher nodes and in
latest-match matcher arrays) an empty `match-any` list rejects every release
(`[].some` is false on the truthy empty array) while an empty `match-all`
list is vacuously true (same result as leaving the key out); in
`matchesCategory` both empty lists are treated as if the key were absent
(`.length > 0` guards), so there they impose no constraint — and a category
whose only matcher key is an empty list therefore has no own matchers and
matches nothing. -/
theorem empty_combinator_lists_amended :
    ∀ (rt : String → String → Bool) (r : Release)
      (mAll mAny : Option MatcherList) (t tn tg tgn bo bn a an : Option String)
      (ip il : Option Bool) (name : String) (de tp : Option String)
      (lm : JsOpt LatestMatch) (cdt : JsOpt CutoffSpec) (md : JsOpt MaxV)
      (ipm : JsOpt InheritMode) (sr : Bool) (cats : List CatConfig)
      (pmv : Option Bool) (im : InheritMode),
      testMatcher rt r (.mk mAll (some .nil) t tn tg tgn bo bn a an ip il) = false ∧
      testMatcher rt r (.mk (some .nil) mAny t tn tg tgn bo bn a an ip il) =
        testMatcher rt r (.mk none mAny t tn tg tgn bo bn a an ip il) ∧
      matchesCategory rt r
          (.mk name de tp mAll (some .nil) t tn tg tgn bo bn a an ip il lm cdt md ipm sr cats)
          pmv im =
        matchesCategory rt r
          (.mk name de tp mAll none t tn tg tgn bo bn a an ip il lm cdt md ipm sr cats)
          pmv im ∧
      matchesCategory rt r
          (.mk name de tp (some .nil) mAny t tn tg tgn bo bn a an ip il lm cdt md ipm sr cats)
          pmv im =
        matchesCategory rt r
          (.mk name de tp none mAny t tn tg tgn bo bn a an ip il lm cdt md ipm sr cats)
          pmv im := by
  intro rt r mAll mAny t tn tg tgn bo bn a an ip il name de tp lm cdt md ipm sr cats pmv im
  refine ⟨?_, ?_, ?_, ?_⟩
  · simp [testMatcher_mk, testAny_nil]
  · simp [testMatcher_mk, testAll_nil]
  · simp [matchesCategory, MatcherList.toList]
  · simp [matchesCategory, MatcherList.toList]

/-- Matcher evaluation only reads a release through the six views used by the
leaf tests (the coerced name/tag/body strings, the assets search text, the
prerelease flag and the isLatest flag); releases agreeing on those views get
identical results, at every nesting depth. -/
theorem testMatcher_congr_aux (rt : String → String → Bool) (r1 r2 : Release)
    (hn : jsToString r1.name = jsToString r2.name)
    (ht : jsToString r1.tag = jsToString r2.tag)
    (hb : jsToString r1.body = jsToString r2.body)
    (ha : assetNamesText r1 = assetNamesText r2)
    (hp : r1.prerelease = r2.prerelease)
    (hl : r1.isLatest = r2.isLatest) :
    ∀ k : Nat,
      (∀ m : Matcher, sizeOf m ≤ k → testMatcher rt r1 m = testMatcher rt r2 m) ∧
      (∀ ms : MatcherList, sizeOf ms ≤ k →
        testAll rt r1 ms = testAll rt r2 ms ∧ testAny rt r1 ms = testAny rt r2 ms) := by
  intro k
  induction k with
  | zero =>
    constructor
    · intro m hm
      exfalso
      cases m with
      | mk mAll mAny t tn tg tgn b bn a an ip il => simp at hm
    · intro ms hms
      exfalso
      cases ms with
      | nil => simp at hms
      | cons m ms' => simp at hms
  | succ k ih =>
    constructor
    · intro m hm
      cases m with
      | mk mAll mAny t tn tg tgn b bn a an ip il =>
        have hleq : testLeaves rt r1 t tn tg tgn b bn a an ip il =
            testLeaves rt r2 t tn tg tgn b bn a an ip il := by
          simp only [testLeaves, hn, ht, hb, ha, hp, hl]
        cases mAll with
        | none =>
          cases mAny with
          | none => rw [testMatcher_mk, testMatcher_mk, hleq]
          | some msA =>
            have hA : sizeOf msA ≤ k := by simp at hm; omega
            rw [testMatcher_mk, testMatcher_mk, hleq]
            dsimp only
            rw [(ih.2 msA hA).2]
        | some msL =>
          have hL : sizeOf msL ≤ k := by simp at hm; omega
          cases mAny with
          | none =>
            rw [testMatcher_mk, testMatcher_mk, hleq]
            dsimp only
            rw [(ih.2 msL hL).1]
          | some msA =>
            have hA : sizeOf msA ≤ k := by simp at hm; omega
            rw [testMatcher_mk, testMatcher_mk, hleq]
            dsimp only
            rw [(ih.2 msL hL).1, (ih.2 msA hA).2]
    · intro ms hms
      cases ms with
      | nil => exact ⟨rfl, rfl⟩
      | cons m ms' =>
        have h1 : sizeOf m ≤ k := by simp at hms; omega
        have h2 : sizeOf ms' ≤ k := by simp at hms; omega
        exact ⟨by rw [testAll_cons, testAll_cons, ih.1 m h1, (ih.2 ms' h2).1],
               by rw [testAny_cons, testAny_cons, ih.1 m h1, (ih.2 ms' h2).2]⟩

/-- C7 counterexample: with the concrete case-insensitive regex test, the
pattern "fined" matches a release whose body field is missing (the regex
test coerces `undefined` to the string "undefined", which contains "fined")
but does not match a release whose body is the empty string — so a missing
field does NOT behave identically to the empty string. -/
theorem undefined_field_vs_empty_cex :
    testMatcher ciRegexTest { rSample with body := none } mFined = true ∧
    testMatcher ciRegexTest { rSample with body := some "" } mFined = false := by
  exact ⟨by decide, by decide⟩

/-- C7 amended: a missing/undefined string field is coerced by the JS regex
test to the literal string "undefined", so every leaf matcher behaves on it
exactly as on a release whose field holds the string "undefined" (no error
is raised; fields that are present behave as themselves, so an
empty-string field behaves as the empty string). -/
theorem undefined_field_equals_undefined_string :
    ∀ (rt : String → String → Bool) (r : Release) (m : Matcher),
      testMatcher rt { r with name := none } m =
        testMatcher rt { r with name := some "undefined" } m ∧
      testMatcher rt { r with tag := none } m =
        testMatcher rt { r with tag := some "undefined" } m ∧
      testMatcher rt { r with body := none } m =
        testMatcher rt { r with body := some "undefined" } m := by
  intro rt r m
  refine ⟨?_, ?_, ?_⟩
  · exact ((testMatcher_congr_aux rt { r with name := none }
      { r with name := some "undefined" } rfl rfl rfl rfl rfl rfl (sizeOf m)).1 m (le_refl _))
  · exact ((testMatcher_congr_aux rt { r with tag := none }
      { r with tag := some "undefined" } rfl rfl rfl rfl rfl rfl (sizeOf m)).1 m (le_refl _))
  · exact ((testMatcher_congr_aux rt { r with body := none }
      { r with body := some "undefined" } rfl rfl rfl rfl rfl rfl (sizeOf m)).1 m (le_refl _))

/-- C2 (behaviour at a bad cutoff string): a cutoff-date string that is
neither the relative shorthand nor a string the date parser understands
yields an Invalid Date, and the cutoff filter — whose falsy check does not
catch an Invalid Date object — then drops every release (every comparison
against NaN is false).  No error is raised anywhere on this path: the
function is total, so the run does not abort, and it also does not treat the
string as "no cutoff". -/
theorem invalid_cutoff_silently_drops_all :
    ∀ (now : Int) (pd : String → Option Int) (relSub : Int → Nat → Char → Int)
      (rs : List Release) (s : String),
      s ≠ "" → parseRelative s = none → pd s = none →
      parseCutoffDate now pd relSub (some (.str s)) = some (.date none) ∧
      filterByCutoffDate pd rs (parseCutoffDate now pd relSub (some (.str s))) = [] := by
  intro now pd relSub rs s hs hrel hpd
  have hparse : parseCutoffDate now pd relSub (some (.str s)) = some (.date none) := by
    simp [parseCutoffDate, hs, hrel, hpd]
  refine ⟨hparse, ?_⟩
  rw [hparse]
  show rs.filter (fun r => jsDateGt (pd r.publishedAt) none) = []
  have : ∀ r : Release, jsDateGt (pd r.publishedAt) none = false := by
    intro r
    cases pd r.publishedAt <;> rfl
  simp [this]

/-- C2 witness: with a parser that cannot resolve "not-a-date", the sample
release list is filtered down to nothing rather than passed through. -/
theorem invalid_cutoff_silently_drops_all_witness :
    filterByCutoffDate pdNone [rSample]
      (parseCutoffDate 0 pdNone (fun n _ _ => n) (some (.str "not-a-date"))) = [] :=
  (invalid_cutoff_silently_drops_all 0 pdNone (fun n _ _ => n) [rSample] "not-a-date"
    (by decide) (by decide) rfl).2

/-- Unfolding equation: pruning a node prunes its children. -/
theorem pruneCat_mk (n d t : String) (rels : List Release) (cats : List CatNode)
    (md : MaxV) :
    pruneCat (.mk n d t rels cats md) = .mk n d t rels (filterEmptyCategories cats) md := by
  rw [pruneCat.eq_def]

/-- Unfolding equation: pruning the empty forest. -/
theorem filterEmptyCategories_nil : filterEmptyCategories [] = [] := by
  rw [filterEmptyCategories.eq_def]

/-- Unfolding equation: pruning a non-empty forest keeps the pruned head iff
it still has releases or surviving children. -/
theorem filterEmptyCategories_cons (c : CatNode) (cs : List CatNode) :
    filterEmptyCategories (c :: cs) =
      if !(pruneCat c).releases.isEmpty || !(pruneCat c).categories.isEmpty
      then pruneCat c :: filterEmptyCategories cs
      else filterEmptyCategories cs := by
  rw [filterEmptyCategories.eq_def]

/-- Unfolding equation for `subtreeHasRelease`. -/
theorem subtreeHasRelease_mk (n d t : String) (rels : List Release)
    (cats : List CatNode) (md : MaxV) :
    subtreeHasRelease (.mk n d t rels cats md) = (!rels.isEmpty || listHasRelease cats) := by
  rw [subtreeHasRelease.eq_def]

/-- Unfolding equations for `listHasRelease`. -/
theorem listHasRelease_nil : listHasRelease [] = false := by
  rw [listHasRelease.eq_def]

/-- Unfolding equation for `listHasRelease` on a non-empty forest. -/
theorem listHasRelease_cons (c : CatNode) (cs : List CatNode) :
    listHasRelease (c :: cs) = (subtreeHasRelease c || listHasRelease cs) := by
  rw [listHasRelease.eq_def]

/-- Unfolding equation for `goodNode`. -/
theorem goodNode_mk (n d t : String) (rels : List Release) (cats : List CatNode)
    (md : MaxV) :
    goodNode (.mk n d t rels cats md) =
      ((!rels.isEmpty || !cats.isEmpty) && goodList cats) := by
  rw [goodNode.eq_def]

/-- Unfolding equation for `goodList` on the empty forest. -/
theorem goodList_nil : goodList [] = true := by
  rw [goodList.eq_def]

/-- Unfolding equation for `goodList` on a non-empty forest. -/
theorem goodList_cons (c : CatNode) (cs : List CatNode) :
    goodList (c :: cs) = (goodNode c && goodList cs) := by
  rw [goodList.eq_def]

/-- `listHasRelease` is `any subtreeHasRelease`. -/
theorem listHasRelease_eq_any :
    ∀ l : List CatNode, listHasRelease l = l.any subtreeHasRelease := by
  intro l
  induction l with
  | nil => rw [listHasRelease_nil]; rfl
  | cons c cs ih => rw [listHasRelease_cons, ih]; rfl

/-- Emptiness of a filtered-and-mapped list is the negation of `any`. -/
theorem filter_map_isEmpty {α β : Type} (p : α → Bool) (f : α → β) :
    ∀ l : List α, ((l.filter p).map f).isEmpty = !(l.any p) := by
  intro l
  induction l with
  | nil => rfl
  | cons x t ih =>
    by_cases hx : p x = true
    · simp [List.filter_cons, hx]
    · simp only [Bool.not_eq_true] at hx
      simp [List.filter_cons, hx, ih]

/-- Fuel induction behind the pruning characterisation: the pruned forest is
recursively non-trivial, and it is exactly the subtree-pruned image of the
nodes whose subtree holds at least one release. -/
theorem filterEmpty_aux :
    ∀ (k : Nat) (cats : List CatNode), sizeOf cats ≤ k →
      goodList (filterEmptyCategories cats) = true ∧
      filterEmptyCategories cats =
        (cats.filter (fun c => subtreeHasRelease c)).map pruneCat := by
  intro k
  induction k with
  | zero =>
    intro cats h
    exfalso
    cases cats <;> simp at h
  | succ k ih =>
    intro cats h
    cases cats with
    | nil =>
      rw [filterEmptyCategories_nil]
      exact ⟨goodList_nil, rfl⟩
    | cons c cs =>
      cases c with
      | mk n d t rels cats0 md =>
        have hcats0 : sizeOf cats0 ≤ k := by simp at h; omega
        have hcs : sizeOf cs ≤ k := by simp at h; omega
        obtain ⟨ihg, ihe⟩ := ih cats0 hcats0
        obtain ⟨ihg2, ihe2⟩ := ih cs hcs
        have hisEmpty : (filterEmptyCategories cats0).isEmpty = !(listHasRelease cats0) := by
          rw [ihe, filter_map_isEmpty, listHasRelease_eq_any]
        have hkeep : (!(pruneCat (CatNode.mk n d t rels cats0 md)).releases.isEmpty ||
            !(pruneCat (CatNode.mk n d t rels cats0 md)).categories.isEmpty) =
            subtreeHasRelease (CatNode.mk n d t rels cats0 md) := by
          rw [pruneCat_mk, subtreeHasRelease_mk]
          show (!rels.isEmpty || !(filterEmptyCategories cats0).isEmpty) = _
          rw [hisEmpty, Bool.not_not]
        rw [filterEmptyCategories_cons, hkeep]
        by_cases hsub : subtreeHasRelease (CatNode.mk n d t rels cats0 md) = true
        · rw [if_pos hsub, List.filter_cons_of_pos hsub, List.map_cons, ihe2]
          refine ⟨?_, rfl⟩
          rw [goodList_cons, ← ihe2, ihg2, pruneCat_mk, goodNode_mk, ihg]
          have : (!rels.isEmpty || !(filterEmptyCategories cats0).isEmpty) = true := by
            rw [hisEmpty, Bool.not_not]
            rw [subtreeHasRelease_mk] at hsub
            exact hsub
          rw [this]
          rfl
        · simp only [Bool.not_eq_true] at hsub
          rw [if_neg (by rw [hsub]; exact Bool.false_ne_true),
            List.filter_cons_of_neg (by rw [hsub]; exact Bool.false_ne_true)]
          exact ⟨ihg2, ihe2⟩

/-- C8: every node of the tree returned by `classifyReleases` has a
non-empty release list or at least one child (recursively), and the pruning
pass removes exactly the nodes whose whole subtree holds no release —
children first — and nothing else: the pruned forest is precisely the
subtree-pruned image of the nodes whose subtree has a release. -/
theorem filterEmptyCategories_spec :
    ∀ (cats : List CatNode)
      (rt : String → String → Bool) (pd : String → Option Int)
      (relSub : Int → Nat → Char → Int) (now : Int) (rs : List Release)
      (ccats : List CatConfig) (dfl : Defaults) (uc : UnmatchedConfig),
      goodList (filterEmptyCategories cats) = true ∧
      filterEmptyCategories cats =
        (cats.filter (fun c => subtreeHasRelease c)).map pruneCat ∧
      goodList (classifyReleases rt pd relSub now rs ccats dfl uc).tree = true := by
  intro cats rt pd relSub now rs ccats dfl uc
  obtain ⟨h1, h2⟩ := filterEmpty_aux (sizeOf cats) cats (le_refl _)
  refine ⟨h1, h2, ?_⟩
  show goodList (filterEmptyCategories _) = true
  exact (filterEmpty_aux (sizeOf _) _ (le_refl _)).1

/-- Unfolding equation: the matched-id component of `processNode` is the ids
of the releases this node matches followed by its children's contribution,
the children being processed under some inherited context whose
inherit-parent-matchers component is this node's effective inherit mode
(the other components — latest-match, cutoff, max-displayed — are irrelevant
to matched ids, which the induction below proves). -/
theorem processNode_snd (rt : String → String → Bool) (pd : String → Option Int)
    (relSub : Int → Nat → Char → Int) (now : Int) (rs : List Release)
    (cd : ConfiguredDefaults) (name : String) (de tp : Option String)
    (mAll mAny : Option MatcherList) (t tn tg tgn b bn a an : Option String)
    (ip il : Option Bool) (lm : JsOpt LatestMatch) (cdt : JsOpt CutoffSpec)
    (md : JsOpt MaxV) (ipm : JsOpt InheritMode) (sr : Bool) (cats : List CatConfig)
    (inh : Inh) (pm : Option (List (Nat × Bool))) :
    ∃ inh' : Inh,
      inh'.inheritMode = some (resolveValue ipm inh.inheritMode cd.inheritParentMatchers) ∧
      (processNode rt pd relSub now rs cd
          (.mk name de tp mAll mAny t tn tg tgn b bn a an ip il lm cdt md ipm sr cats)
          inh pm).2 =
        (rs.filter (fun r => matchesCategory rt r
            (.mk name de tp mAll mAny t tn tg tgn b bn a an ip il lm cdt md ipm sr cats)
            (pm.bind (fun l => mapGet l r.id))
            (resolveValue ipm inh.inheritMode cd.inheritParentMatchers))).map (fun r => r.id) ++
        (processList rt pd relSub now rs cd cats inh'
          (some (rs.map (fun r => (r.id, matchesCategory rt r
            (.mk name de tp mAll mAny t tn tg tgn b bn a an ip il lm cdt md ipm sr cats)
            (pm.bind (fun l => mapGet l r.id))
            (resolveValue ipm inh.inheritMode cd.inheritParentMatchers)))))).2 := by
  rw [processNode.eq_def]
  dsimp only
  exact ⟨_, rfl, rfl⟩

/-- Unfolding equation: processing an empty forest. -/
theorem processList_nil (rt : String → String → Bool) (pd : String → Option Int)
    (relSub : Int → Nat → Char → Int) (now : Int) (rs : List Release)
    (cd : ConfiguredDefaults) (inh : Inh) (pm : Option (List (Nat × Bool))) :
    processList rt pd relSub now rs cd [] inh pm = ([], []) := by
  rw [processList.eq_def]

/-- Unfolding equation: processing a non-empty forest. -/
theorem processList_cons (rt : String → String → Bool) (pd : String → Option Int)
    (relSub : Int → Nat → Char → Int) (now : Int) (rs : List Release)
    (cd : ConfiguredDefaults) (c : CatConfig) (cs : List CatConfig) (inh : Inh)
    (pm : Option (List (Nat × Bool))) :
    processList rt pd relSub now rs cd (c :: cs) inh pm =
      ((processNode rt pd relSub now rs cd c inh pm).1 ::
         (processList rt pd relSub now rs cd cs inh pm).1,
       (processNode rt pd relSub now rs cd c inh pm).2 ++
         (processList rt pd relSub now rs cd cs inh pm).2) := by
  rw [processList.eq_def]

/-- Unfolding equation for the specification-side matched ids of one node. -/
theorem specNodeIds_mk (rt : String → String → Bool) (rs : List Release)
    (dIM : InheritMode) (name : String) (de tp : Option String)
    (mAll mAny : Option MatcherList) (t tn tg tgn b bn a an : Option String)
    (ip il : Option Bool) (lm : JsOpt LatestMatch) (cdt : JsOpt CutoffSpec)
    (md : JsOpt MaxV) (ipm : JsOpt InheritMode) (sr : Bool) (cats : List CatConfig)
    (inhIM : Option InheritMode) (pm : Option (List (Nat × Bool))) :
    specNodeIds rt rs dIM
        (.mk name de tp mAll mAny t tn tg tgn b bn a an ip il lm cdt md ipm sr cats)
        inhIM pm =
      (rs.filter (fun r => matchesCategory rt r
          (.mk name de tp mAll mAny t tn tg tgn b bn a an ip il lm cdt md ipm sr cats)
          (pm.bind (fun l => mapGet l r.id))
          (resolveValue ipm inhIM dIM))).map (fun r => r.id) ++
      specListIds rt rs dIM cats (some (resolveValue ipm inhIM dIM))
        (some (rs.map (fun r => (r.id, matchesCategory rt r
          (.mk name de tp mAll mAny t tn tg tgn b bn a an ip il lm cdt md ipm sr cats)
          (pm.bind (fun l => mapGet l r.id))
          (resolveValue ipm inhIM dIM))))) := by
  rw [specNodeIds.eq_def]

/-- Unfolding equation for the specification-side ids of an empty forest. -/
theorem specListIds_nil (rt : String → String → Bool) (rs : List Release)
    (dIM : InheritMode) (inhIM : Option InheritMode) (pm : Option (List (Nat × Bool))) :
    specListIds rt rs dIM [] inhIM pm = [] := by
  rw [specListIds.eq_def]

/-- Unfolding equation for the specification-side ids of a non-empty forest. -/
theorem specListIds_cons (rt : String → String → Bool) (rs : List Release)
    (dIM : InheritMode) (c : CatConfig) (cs : List CatConfig)
    (inhIM : Option InheritMode) (pm : Option (List (Nat × Bool))) :
    specListIds rt rs dIM (c :: cs) inhIM pm =
      specNodeIds rt rs dIM c inhIM pm ++ specListIds rt rs dIM cs inhIM pm := by
  rw [specListIds.eq_def]

/-- Fuel induction: the matched-id component of the tree builder coincides
with the specification-side recursion, whatever the inherited latest-match,
cutoff-date and max-displayed values are. -/
theorem matchedIds_aux (rt : String → String → Bool) (pd : String → Option Int)
    (relSub : Int → Nat → Char → Int) (now : Int) (rs : List Release)
    (cd : ConfiguredDefaults) :
    ∀ k : Nat,
      (∀ (node : CatConfig) (inh : Inh) (pm : Option (List (Nat × Bool))),
        sizeOf node ≤ k →
        (processNode rt pd relSub now rs cd node inh pm).2 =
          specNodeIds rt rs cd.inheritParentMatchers node inh.inheritMode pm) ∧
      (∀ (nodes : List CatConfig) (inh : Inh) (pm : Option (List (Nat × Bool))),
        sizeOf nodes ≤ k →
        (processList rt pd relSub now rs cd nodes inh pm).2 =
          specListIds rt rs cd.inheritParentMatchers nodes inh.inheritMode pm) := by
  intro k
  induction k with
  | zero =>
    constructor
    · intro node inh pm h
      exfalso
      cases node with
      | mk name de tp mAll mAny t tn tg tgn b bn a an ip il lm cdt md ipm sr cats =>
        simp at h
    · intro nodes inh pm h
      exfalso
      cases nodes <;> simp at h
  | succ k ih =>
    constructor
    · intro node inh pm h
      cases node with
      | mk name de tp mAll mAny t tn tg tgn b bn a an ip il lm cdt md ipm sr cats =>
        have hcats : sizeOf cats ≤ k := by simp at h; omega
        obtain ⟨inh', hIM, hsnd⟩ := processNode_snd rt pd relSub now rs cd
          name de tp mAll mAny t tn tg tgn b bn a an ip il lm cdt md ipm sr cats inh pm
        rw [hsnd, specNodeIds_mk, ih.2 cats inh' _ hcats, hIM]
    · intro nodes inh pm h
      cases nodes with
      | nil => rw [processList_nil, specListIds_nil]
      | cons c cs =>
        have hc : sizeOf c ≤ k := by simp at h; omega
        have hcs : sizeOf cs ≤ k := by simp at h; omega
        rw [processList_cons, specListIds_cons]
        dsimp only
        rw [ih.1 c inh pm hc, ih.2 cs inh pm hcs]

/-- C6: the unmatched bucket computed by `classifyReleases` — before its own
cutoff filtering — is exactly the input releases whose id was matched by no
category node anywhere in the tree (the specification-side recursion runs
every node's matchers, including those of display-suppressed nodes, and
ignores show-releases, cutoff dates, latest-match and max-displayed
entirely); the returned unmatched list is that exact set-difference run
through the unmatched pipeline. -/
theorem unmatched_bucket_exact :
    ∀ (rt : String → String → Bool) (pd : String → Option Int)
      (relSub : Int → Nat → Char → Int) (now : Int) (rs : List Release)
      (cats : List CatConfig) (dfl : Defaults) (uc : UnmatchedConfig),
      unmatchedBucket rs
          (processList rt pd relSub now rs (configuredDefaultsOf now pd relSub dfl) cats
            ⟨none, none, none, none⟩ none).2 =
        (rs.filter (fun r =>
          !((specListIds rt rs (configuredDefaultsOf now pd relSub dfl).inheritParentMatchers
              cats none none).contains r.id))).map
          (fun r => { r with isLatest := some false }) ∧
      (classifyReleases rt pd relSub now rs cats dfl uc).unmatchedReleases =
        unmatchedPipeline rt pd
          (resolveUnmatchedCutoff now pd relSub (configuredDefaultsOf now pd relSub dfl) uc)
          (uc.latestMatch.getD (configuredDefaultsOf now pd relSub dfl).latestMatch)
          ((rs.filter (fun r =>
            !((specListIds rt rs (configuredDefaultsOf now pd relSub dfl).inheritParentMatchers
                cats none none).contains r.id))).map
            (fun r => { r with isLatest := some false })) := by
  intro rt pd relSub now rs cats dfl uc
  have hids : (processList rt pd relSub now rs (configuredDefaultsOf now pd relSub dfl) cats
      ⟨none, none, none, none⟩ none).2 =
      specListIds rt rs (configuredDefaultsOf now pd relSub dfl).inheritParentMatchers
        cats none none :=
    (matchedIds_aux rt pd relSub now rs (configuredDefaultsOf now pd relSub dfl)
      (sizeOf cats)).2 cats ⟨none, none, none, none⟩ none (le_refl _)
  have hbucket : unmatchedBucket rs
      (processList rt pd relSub now rs (configuredDefaultsOf now pd relSub dfl) cats
        ⟨none, none, none, none⟩ none).2 =
      (rs.filter (fun r =>
        !((specListIds rt rs (configuredDefaultsOf now pd relSub dfl).inheritParentMatchers
            cats none none).contains r.id))).map
        (fun r => { r with isLatest := some false }) := by
    rw [hids]; rfl
  refine ⟨hbucket, ?_⟩
  show unmatchedPipeline rt pd _ _
      (unmatchedBucket rs
        (processList rt pd relSub now rs (configuredDefaultsOf now pd relSub dfl) cats
          ⟨none, none, none, none⟩ none).2) = _
  rw [hbucket]

end GCR
